import Mathlib

/-!
Verification of the fretbrick lattice geometry engine and progression
playback scheduler (shallow embedding of the Fretscape source).

Coordinates are modelled over the rationals: every coordinate the source
manipulates is produced from integer cell data and the field operations
(+, -, *, /), so the rational model computes the same values that the
JavaScript floating-point evaluation approximates.  JavaScript Math.round
(round half toward positive infinity) coincides with Mathlib round.
-/

namespace Fretscape

/-- Canvas width in cell units (constructor field widthCw = 25). -/
def widthCw : ℚ := 25

/-- Canvas height in cell units (constructor field heightCw = 15). -/
def heightCw : ℚ := 15

/-- Brick footprint width in cell units (constructor field brickWidthCw = 5). -/
def brickWidthCw : ℚ := 5

/-- Brick footprint height in cell units (constructor field brickHeightCw = 3). -/
def brickHeightCw : ℚ := 3

/-- Default lattice origin used when no brick exists (_defaultOneCellCenterCw). -/
def defaultOneCellCenterCw : ℚ × ℚ := (14, 7)

/-- _globalToLattice: solves point = o + a*(2,-2) + b*(5,1) for (a, b). -/
def globalToLattice (o : ℚ × ℚ) (xCw yCw : ℚ) : ℚ × ℚ :=
  ((xCw - o.1 - 5 * (yCw - o.2)) / 12, (xCw - o.1 + (yCw - o.2)) / 6)

/-- _latticeToGlobal: o + a*(2,-2) + b*(5,1). -/
def latticeToGlobal (o : ℚ × ℚ) (a b : ℚ) : ℚ × ℚ :=
  (o.1 + 2 * a + 5 * b, o.2 - 2 * a + b)

/-- C1: for every pair of integers (a, b) and every origin o, converting
lattice coordinates to a world point with _latticeToGlobal and back with
_globalToLattice returns (a, b) again.  In the rational model the
round-trip is exact, hence in particular within the 1e-6 tolerance the
spec allows for floating point. -/
theorem globalToLattice_latticeToGlobal (o : ℚ × ℚ) (a b : ℤ) :
    globalToLattice o (latticeToGlobal o a b).1 (latticeToGlobal o a b).2 =
      ((a : ℚ), (b : ℚ)) := by
  unfold globalToLattice latticeToGlobal
  refine Prod.ext ?_ ?_ <;> (show _ = _; push_cast; ring)

/-- Snap-to-intersection radius for the drag projector (DRAG_SNAP_RADIUS_CW). -/
def dragSnapRadiusCw : ℚ := 1 / 2

/-- _doMove, reduced to its pure core: given the snapped drag start origin,
the active constraint vector and the desired unconstrained origin position
(pointer position minus the pointer-to-origin offset), returns the
constrained origin position.  Returns none when the constraint vector is
degenerate (the source returns without moving).  The source compares
abs (t - round t) * sqrt vLenSq with the radius; both sides are
nonnegative, so the comparison is squared here to stay inside ℚ. -/
def doMove (start v desired : ℚ × ℚ) : Option (ℚ × ℚ) :=
  let vLenSq := v.1 * v.1 + v.2 * v.2
  if vLenSq = 0 then none
  else
    let t := ((desired.1 - start.1) * v.1 + (desired.2 - start.2) * v.2) / vLenSq
    if (t - round t) ^ 2 * vLenSq ≤ dragSnapRadiusCw ^ 2 then
      some (start.1 + (round t : ℚ) * v.1, start.2 + (round t : ℚ) * v.2)
    else
      some (start.1 + t * v.1, start.2 + t * v.2)

/-- C3: during an active drag every position produced by _doMove lies
exactly on the line through the snapped start anchor along the active
constraint vector: the cross product of (output - start) with v is zero,
in the smooth-sliding branch (fractional t) as well as in the snapped
branch (t rounded). -/
theorem doMove_on_constraint_line (start desired v p : ℚ × ℚ)
    (hv : v = (2, -2) ∨ v = (5, 1))
    (h : doMove start v desired = some p) :
    (p.1 - start.1) * v.2 - (p.2 - start.2) * v.1 = 0 := by
  have hlen : v.1 * v.1 + v.2 * v.2 ≠ 0 := by
    rcases hv with h | h <;> rw [h] <;> norm_num
  unfold doMove at h
  rw [if_neg hlen] at h
  simp only [] at h
  split at h <;> (injection h with h; subst h; ring)

/-- Witness for C3 at a concrete smooth-sliding input: desired (1, 0) from
start (0, 0) along (2, -2) projects to (1/2, -1/2), which lies on the
constraint line. -/
theorem doMove_on_constraint_line_witness :
    doMove (0, 0) (2, -2) (1, 0) = some (1 / 2, -(1 / 2)) ∧
      ((1 / 2 : ℚ) - 0) * (-2) - (-(1 / 2 : ℚ) - 0) * 2 = 0 := by
  have h : doMove (0, 0) ((2 : ℚ), (-2 : ℚ)) (1, 0) = some (1 / 2, -(1 / 2)) := by
    unfold doMove dragSnapRadiusCw
    norm_num [round_eq]
  exact ⟨h, doMove_on_constraint_line (0, 0) (1, 0) (2, -2) (1 / 2, -(1 / 2))
    (Or.inl rfl) h⟩

/-- Helper for intRange: the n integers starting at lo. -/
def intRangeAux (lo : ℤ) : ℕ → List ℤ
  | 0 => []
  | n + 1 => lo :: intRangeAux (lo + 1) n

/-- Integers lo .. hi as a list (ascending), modelling a JS for loop. -/
def intRange (lo hi : ℤ) : List ℤ := intRangeAux lo (hi + 1 - lo).toNat

theorem mem_intRangeAux {x : ℤ} : ∀ (n : ℕ) (lo : ℤ),
    x ∈ intRangeAux lo n ↔ lo ≤ x ∧ x < lo + n := by
  intro n
  induction n with
  | zero => intro lo; simp [intRangeAux]
  | succ n ih =>
      intro lo
      simp only [intRangeAux, List.mem_cons, ih (lo + 1)]
      omega

theorem mem_intRange {lo hi x : ℤ} : x ∈ intRange lo hi ↔ lo ≤ x ∧ x ≤ hi := by
  unfold intRange
  rw [mem_intRangeAux]
  omega

/-- The Chebyshev ring of radius r scanned by one pass of the
_snapToLattice while loop: di from -r to r, dj from -r to r, skipping
pairs with both absolute values different from r, in source scan order. -/
def ringOffsets (r : ℕ) : List (ℤ × ℤ) :=
  (intRange (-(r : ℤ)) r).flatMap (fun di =>
    ((intRange (-(r : ℤ)) r).filter
      (fun dj => decide (di.natAbs = r ∨ dj.natAbs = r))).map (fun dj => (di, dj)))

theorem mem_ringOffsets {r : ℕ} {d : ℤ × ℤ} :
    d ∈ ringOffsets r ↔ max d.1.natAbs d.2.natAbs = r := by
  unfold ringOffsets
  rcases d with ⟨di, dj⟩
  simp only [List.mem_flatMap, List.mem_map, List.mem_filter, mem_intRange,
    decide_eq_true_eq, Prod.mk.injEq]
  constructor
  · rintro ⟨a, ha, b, ⟨hb, hab⟩, rfl, rfl⟩
    omega
  · rintro h
    exact ⟨di, by omega, dj, ⟨by omega, by omega⟩, rfl, rfl⟩

/-- maxX bound of _snapToLattice: Math.floor(widthCw - brickWidthCw). -/
def snapMaxX : ℚ := ((⌊widthCw - brickWidthCw⌋ : ℤ) : ℚ)

/-- maxY bound of _snapToLattice: Math.floor(heightCw - brickHeightCw). -/
def snapMaxY : ℚ := ((⌊heightCw - brickHeightCw⌋ : ℤ) : ℚ)

/-- The inBounds closure of _snapToLattice: the brick top-left implied by
an origin position (origin minus the origin-cell offset) must lie inside
[0, maxX] x [0, maxY]. -/
def snapInBounds (off pos : ℚ × ℚ) : Bool :=
  decide (0 ≤ pos.1 - off.1 ∧ pos.1 - off.1 ≤ snapMaxX ∧
    0 ≤ pos.2 - off.2 ∧ pos.2 - off.2 ≤ snapMaxY)

/-- Squared Euclidean distance, as computed by the source variable d. -/
def sqDist (p c : ℚ × ℚ) : ℚ := (p.1 - c.1) * (p.1 - c.1) + (p.2 - c.2) * (p.2 - c.2)

/-- The sentinel 1e9 used as the initial bestD. -/
def snapCap : ℚ := 10 ^ 9

/-- Rounded lattice a-coordinate of the candidate (Math.round(lab.a)). -/
def snapI0 (o c : ℚ × ℚ) : ℤ := round (globalToLattice o c.1 c.2).1

/-- Rounded lattice b-coordinate of the candidate (Math.round(lab.b)). -/
def snapJ0 (o c : ℚ × ℚ) : ℤ := round (globalToLattice o c.1 c.2).2

/-- The rounded lattice point that _snapToLattice starts from. -/
def snapRounded (o c : ℚ × ℚ) : ℚ × ℚ :=
  latticeToGlobal o ((snapI0 o c : ℤ) : ℚ) ((snapJ0 o c : ℤ) : ℚ)

/-- World position of a ring offset relative to the rounded lattice point. -/
def snapCandidate (o : ℚ × ℚ) (i0 j0 : ℤ) (d : ℤ × ℤ) : ℚ × ℚ :=
  latticeToGlobal o ((i0 + d.1 : ℤ) : ℚ) ((j0 + d.2 : ℤ) : ℚ)

/-- Running best of the spiral search. -/
structure SnapAcc where
  best : ℚ × ℚ
  bestD : ℚ
deriving DecidableEq

/-- Inner body of the spiral search: test one ring offset, keep it when it
is in bounds and strictly closer than the best so far. -/
def snapStep (o c off : ℚ × ℚ) (i0 j0 : ℤ) (acc : SnapAcc) (d : ℤ × ℤ) : SnapAcc :=
  if snapInBounds off (snapCandidate o i0 j0 d) then
    if sqDist (snapCandidate o i0 j0 d) c < acc.bestD then
      ⟨snapCandidate o i0 j0 d, sqDist (snapCandidate o i0 j0 d) c⟩
    else acc
  else acc

/-- The while loop of _snapToLattice: scan rings r, r+1, ... until a ring
improves bestD below the 1e9 sentinel, with fuel bounding r < 20. -/
def snapSpiral (o c off : ℚ × ℚ) (i0 j0 : ℤ) : ℕ → ℕ → SnapAcc → ℚ × ℚ
  | 0, _, acc => acc.best
  | fuel + 1, r, acc =>
      if ((ringOffsets r).foldl (snapStep o c off i0 j0) acc).bestD < snapCap then
        ((ringOffsets r).foldl (snapStep o c off i0 j0) acc).best
      else snapSpiral o c off i0 j0 fuel (r + 1)
        ((ringOffsets r).foldl (snapStep o c off i0 j0) acc)

/-- _snapToLattice: snaps a candidate origin position to the lattice,
searching outward over Chebyshev rings when the rounded point is out of
bounds. -/
def snapToLattice (o c off : ℚ × ℚ) : ℚ × ℚ :=
  if snapInBounds off (snapRounded o c) then snapRounded o c
  else snapSpiral o c off (snapI0 o c) (snapJ0 o c) 20 0 ⟨snapRounded o c, snapCap⟩

/-- A ring qualifies when it holds an in-bounds candidate that would
register against the 1e9 sentinel. -/
def SnapRingQual (o c off : ℚ × ℚ) (r : ℕ) : Prop :=
  ∃ d ∈ ringOffsets r, snapInBounds off (snapCandidate o (snapI0 o c) (snapJ0 o c) d) = true ∧
    sqDist (snapCandidate o (snapI0 o c) (snapJ0 o c) d) c < snapCap

instance (o c off : ℚ × ℚ) (r : ℕ) : Decidable (SnapRingQual o c off r) := by
  unfold SnapRingQual
  infer_instance

theorem snapStep_bestD_le (o c off : ℚ × ℚ) (i0 j0 : ℤ) (acc : SnapAcc) (d : ℤ × ℤ) :
    (snapStep o c off i0 j0 acc d).bestD ≤ acc.bestD := by
  unfold snapStep
  split
  · split
    · next h => exact le_of_lt h
    · exact le_refl _
  · exact le_refl _

theorem snapFold_bestD_le (o c off : ℚ × ℚ) (i0 j0 : ℤ) :
    ∀ (l : List (ℤ × ℤ)) (acc : SnapAcc),
      ((l.foldl (snapStep o c off i0 j0) acc)).bestD ≤ acc.bestD := by
  intro l
  induction l with
  | nil => intro acc; exact le_refl _
  | cons d l ih =>
      intro acc
      exact le_trans (ih (snapStep o c off i0 j0 acc d)) (snapStep_bestD_le o c off i0 j0 acc d)

theorem snapFold_bestD_le_mem (o c off : ℚ × ℚ) (i0 j0 : ℤ) :
    ∀ (l : List (ℤ × ℤ)) (acc : SnapAcc) (d : ℤ × ℤ), d ∈ l →
      snapInBounds off (snapCandidate o i0 j0 d) = true →
      ((l.foldl (snapStep o c off i0 j0) acc)).bestD ≤ sqDist (snapCandidate o i0 j0 d) c := by
  intro l
  induction l with
  | nil => intro acc d hd; exact absurd hd (by simp)
  | cons a l ih =>
      intro acc d hd hin
      rcases List.mem_cons.1 hd with rfl | hd
      · refine le_trans (snapFold_bestD_le o c off i0 j0 l _) ?_
        unfold snapStep
        rw [hin]
        simp only [if_true]
        split
        · exact le_refl _
        · next h => exact le_of_not_lt h
      · exact ih (snapStep o c off i0 j0 acc a) d hd hin

/-- Accumulator invariant of the spiral: either untouched (sentinel), or
the best is an in-bounds candidate at its own recorded distance. -/
def SnapInv (c off : ℚ × ℚ) (init : ℚ × ℚ) (acc : SnapAcc) : Prop :=
  acc = ⟨init, snapCap⟩ ∨
    (snapInBounds off acc.best = true ∧ sqDist acc.best c = acc.bestD ∧ acc.bestD < snapCap)

theorem snapStep_inv (o c off : ℚ × ℚ) (i0 j0 : ℤ) (init : ℚ × ℚ) (acc : SnapAcc)
    (h : SnapInv c off init acc) (d : ℤ × ℤ) :
    SnapInv c off init (snapStep o c off i0 j0 acc d) := by
  have hcap : acc.bestD ≤ snapCap := by
    rcases h with h | h
    · rw [h]
    · exact le_of_lt h.2.2
  unfold snapStep
  split
  · next hin =>
    split
    · next hlt => exact Or.inr ⟨hin, rfl, lt_of_lt_of_le hlt hcap⟩
    · exact h
  · exact h

theorem snapFold_inv (o c off : ℚ × ℚ) (i0 j0 : ℤ) (init : ℚ × ℚ) :
    ∀ (l : List (ℤ × ℤ)) (acc : SnapAcc), SnapInv c off init acc →
      SnapInv c off init (l.foldl (snapStep o c off i0 j0) acc) := by
  intro l
  induction l with
  | nil => intro acc h; exact h
  | cons d l ih =>
      intro acc h
      exact ih (snapStep o c off i0 j0 acc d) (snapStep_inv o c off i0 j0 init acc h d)

theorem snapFold_skip (o c off : ℚ × ℚ) (i0 j0 : ℤ) :
    ∀ (l : List (ℤ × ℤ)) (acc : SnapAcc),
      (∀ d ∈ l, snapInBounds off (snapCandidate o i0 j0 d) = true →
        ¬ sqDist (snapCandidate o i0 j0 d) c < acc.bestD) →
      l.foldl (snapStep o c off i0 j0) acc = acc := by
  intro l
  induction l with
  | nil => intro acc _; rfl
  | cons a l ih =>
      intro acc h
      have hstep : snapStep o c off i0 j0 acc a = acc := by
        unfold snapStep
        split
        · next hin =>
          rw [if_neg (h a (by simp) hin)]
        · rfl
      rw [List.foldl_cons, hstep]
      exact ih acc (fun d hd => h d (by simp [hd]))

theorem snapSpiral_no_ring (o c off : ℚ × ℚ) (i0 j0 : ℤ) (init : ℚ × ℚ) :
    ∀ (fuel r₀ : ℕ),
      (∀ k, r₀ ≤ k → k < r₀ + fuel →
        ¬ ∃ d ∈ ringOffsets k, snapInBounds off (snapCandidate o i0 j0 d) = true ∧
          sqDist (snapCandidate o i0 j0 d) c < snapCap) →
      snapSpiral o c off i0 j0 fuel r₀ ⟨init, snapCap⟩ = init := by
  intro fuel
  induction fuel with
  | zero => intro r₀ _; rfl
  | succ fuel ih =>
      intro r₀ hq
      have hnone : ∀ d ∈ ringOffsets r₀,
          snapInBounds off (snapCandidate o i0 j0 d) = true →
          ¬ sqDist (snapCandidate o i0 j0 d) c <
            (SnapAcc.mk init snapCap).bestD := by
        intro d hd hin hlt
        exact hq r₀ (le_refl _) (by omega) ⟨d, hd, hin, hlt⟩
      have hfold := snapFold_skip o c off i0 j0 (ringOffsets r₀) ⟨init, snapCap⟩ hnone
      show (if _ then _ else _) = init
      rw [hfold]
      rw [if_neg (lt_irrefl snapCap)]
      exact ih (r₀ + 1) (fun k h1 h2 => hq k (by omega) (by omega))

theorem snapSpiral_found (o c off : ℚ × ℚ) (i0 j0 : ℤ) (init : ℚ × ℚ) :
    ∀ (fuel r₀ r : ℕ), r₀ ≤ r → r < r₀ + fuel →
      (∃ d ∈ ringOffsets r, snapInBounds off (snapCandidate o i0 j0 d) = true ∧
        sqDist (snapCandidate o i0 j0 d) c < snapCap) →
      (∀ k, r₀ ≤ k → k < r →
        ¬ ∃ d ∈ ringOffsets k, snapInBounds off (snapCandidate o i0 j0 d) = true ∧
          sqDist (snapCandidate o i0 j0 d) c < snapCap) →
      snapInBounds off (snapSpiral o c off i0 j0 fuel r₀ ⟨init, snapCap⟩) = true ∧
        ∀ d ∈ ringOffsets r, snapInBounds off (snapCandidate o i0 j0 d) = true →
          sqDist (snapSpiral o c off i0 j0 fuel r₀ ⟨init, snapCap⟩) c ≤
            sqDist (snapCandidate o i0 j0 d) c := by
  intro fuel
  induction fuel with
  | zero => intro r₀ r h1 h2; omega
  | succ fuel ih =>
      intro r₀ r h1 h2 hq hnoq
      by_cases hq0 : ∃ d ∈ ringOffsets r₀,
          snapInBounds off (snapCandidate o i0 j0 d) = true ∧
          sqDist (snapCandidate o i0 j0 d) c < snapCap
      · have hr : r = r₀ := by
          by_contra hne
          exact hnoq r₀ (le_refl _) (by omega) hq0
        subst hr
        obtain ⟨d₀, hd₀, hin₀, hlt₀⟩ := hq0
        have hle := snapFold_bestD_le_mem o c off i0 j0 (ringOffsets r)
          ⟨init, snapCap⟩ d₀ hd₀ hin₀
        have hltcap : ((ringOffsets r).foldl (snapStep o c off i0 j0)
            ⟨init, snapCap⟩).bestD < snapCap := lt_of_le_of_lt hle hlt₀
        have hres : snapSpiral o c off i0 j0 (fuel + 1) r ⟨init, snapCap⟩ =
            ((ringOffsets r).foldl (snapStep o c off i0 j0) ⟨init, snapCap⟩).best := by
          show (if _ then _ else _) = _
          rw [if_pos hltcap]
        have hinv := snapFold_inv o c off i0 j0 init (ringOffsets r) ⟨init, snapCap⟩
          (Or.inl rfl)
        rcases hinv with hinv | hinv
        · rw [hinv] at hltcap
          exact absurd hltcap (lt_irrefl _)
        · refine ⟨by rw [hres]; exact hinv.1, ?_⟩
          intro d hd hin
          rw [hres, hinv.2.1]
          exact snapFold_bestD_le_mem o c off i0 j0 (ringOffsets r)
            ⟨init, snapCap⟩ d hd hin
      · have hnone : ∀ d ∈ ringOffsets r₀,
            snapInBounds off (snapCandidate o i0 j0 d) = true →
            ¬ sqDist (snapCandidate o i0 j0 d) c <
              (SnapAcc.mk init snapCap).bestD := by
          intro d hd hin hlt
          exact hq0 ⟨d, hd, hin, hlt⟩
        have hfold := snapFold_skip o c off i0 j0 (ringOffsets r₀) ⟨init, snapCap⟩ hnone
        have hr : r₀ < r := by
          rcases lt_or_eq_of_le h1 with h | h
          · exact h
          · subst h; exact absurd hq hq0
        have hres : snapSpiral o c off i0 j0 (fuel + 1) r₀ ⟨init, snapCap⟩ =
            snapSpiral o c off i0 j0 fuel (r₀ + 1) ⟨init, snapCap⟩ := by
          show (if _ then _ else _) = _
          rw [hfold]
          rw [if_neg (lt_irrefl snapCap)]
        rw [hres]
        exact ih (r₀ + 1) r (by omega) (by omega) hq
          (fun k hk1 hk2 => hnoq k (by omega) hk2)

/-- C2 (amended): when the rounded lattice point is in bounds it is
returned immediately (with no minimality over other lattice points — see
the counterexample theorem); otherwise the result is the in-bounds point
of least Euclidean distance to the candidate among the lattice points on
the first Chebyshev ring (radius below 20, in lattice offsets from the
rounded point) holding an in-bounds point that registers below the 1e9
sentinel; when no ring below 20 holds such a point the possibly
out-of-bounds rounded point is returned as a last resort. -/
theorem snapToLattice_spec (o c off : ℚ × ℚ) :
    (snapInBounds off (snapRounded o c) = true →
      snapToLattice o c off = snapRounded o c) ∧
      (snapInBounds off (snapRounded o c) = false →
        ((∀ r, r < 20 → ¬ SnapRingQual o c off r) →
          snapToLattice o c off = snapRounded o c) ∧
        (∀ r, r < 20 → SnapRingQual o c off r →
          (∀ k, k < r → ¬ SnapRingQual o c off k) →
          snapInBounds off (snapToLattice o c off) = true ∧
            ∀ d ∈ ringOffsets r,
              snapInBounds off (snapCandidate o (snapI0 o c) (snapJ0 o c) d) = true →
              sqDist (snapToLattice o c off) c ≤
                sqDist (snapCandidate o (snapI0 o c) (snapJ0 o c) d) c)) := by
  constructor
  · intro h
    unfold snapToLattice
    rw [if_pos h]
  · intro h
    have hneg : ¬ snapInBounds off (snapRounded o c) = true := by rw [h]; simp
    constructor
    · intro hall
      unfold snapToLattice
      rw [if_neg hneg]
      exact snapSpiral_no_ring o c off (snapI0 o c) (snapJ0 o c) (snapRounded o c) 20 0
        (fun k _ hk => hall k (by omega))
    · intro r hr hq hnoq
      unfold snapToLattice
      rw [if_neg hneg]
      exact snapSpiral_found o c off (snapI0 o c) (snapJ0 o c) (snapRounded o c) 20 0 r
        (by omega) (by omega) hq (fun k _ hk => hnoq k hk)

/-- Counterexample to C2 as stated: for the candidate (16.8, 6.6) with the
default origin (14, 7) and origin-cell offset (4, 1), the snap returns the
in-bounds rounded point (14, 7) at squared distance 8, yet the lattice
point (19, 8) (ring-1 offset (0, 1), well within the 20-ring cap) is also
in bounds at squared distance 34/5 < 8, so the returned point is not the
nearest in-bounds lattice point within the search cap. -/
theorem snapToLattice_claim_counterexample :
    snapToLattice (14, 7) (84 / 5, 33 / 5) (4, 1) = (14, 7) ∧
      snapInBounds (4, 1) (14, 7) = true ∧
      latticeToGlobal (14, 7) 0 1 = (19, 8) ∧
      snapInBounds (4, 1) (19, 8) = true ∧
      ((0, 1) : ℤ × ℤ) ∈ ringOffsets 1 ∧
      sqDist (19, 8) (84 / 5, 33 / 5) <
        sqDist (snapToLattice (14, 7) (84 / 5, 33 / 5) (4, 1)) (84 / 5, 33 / 5) := by
  have hr : snapRounded (14, 7) (84 / 5, 33 / 5) = (14, 7) := by
    norm_num [snapRounded, snapI0, snapJ0, globalToLattice, latticeToGlobal, round_eq,
      Prod.ext_iff]
  have hin : snapInBounds (4, 1) ((14 : ℚ), (7 : ℚ)) = true := by
    norm_num [snapInBounds, snapMaxX, snapMaxY, widthCw, brickWidthCw, heightCw,
      brickHeightCw]
  have h : snapToLattice (14, 7) (84 / 5, 33 / 5) (4, 1) = (14, 7) := by
    unfold snapToLattice
    rw [hr, if_pos hin]
  refine ⟨h, hin, ?_, ?_, by decide, ?_⟩
  · norm_num [latticeToGlobal, Prod.ext_iff]
  · norm_num [snapInBounds, snapMaxX, snapMaxY, widthCw, brickWidthCw, heightCw,
      brickHeightCw]
  · rw [h]
    norm_num [sqDist]

/-- Witness for C2 at a concrete in-bounds input: the rounded point of the
candidate (14, 7) itself is in bounds and is returned unchanged. -/
theorem snapToLattice_spec_witness :
    snapInBounds (4, 1) (snapRounded (14, 7) (14, 7)) = true ∧
      snapToLattice (14, 7) (14, 7) (4, 1) = snapRounded (14, 7) (14, 7) := by
  have hr : snapRounded (14, 7) (14, 7) = (14, 7) := by
    norm_num [snapRounded, snapI0, snapJ0, globalToLattice, latticeToGlobal, round_eq,
      Prod.ext_iff]
  have hin : snapInBounds (4, 1) (snapRounded (14, 7) (14, 7)) = true := by
    rw [hr]
    norm_num [snapInBounds, snapMaxX, snapMaxY, widthCw, brickWidthCw, heightCw,
      brickHeightCw]
  exact ⟨hin, (snapToLattice_spec (14, 7) (14, 7) (4, 1)).1 hin⟩
def fretspaceCandidateYs : List ℤ := [-3, -2, -1, 0, 1, 2, 3]

/-- Score |x| + |y| * 2 used by _semitoneToFretspaceOffset for x = s - 5y. -/
def fretspaceScore (s y : ℤ) : ℤ := |s - 5 * y| + |y| * 2

/-- One iteration of the _semitoneToFretspaceOffset loop; the second
component is the best score so far (none plays the role of the initial
+Infinity, which every finite score beats). -/
def fretspaceStep (s : ℤ) (acc : (ℤ × ℤ) × Option ℤ) (y : ℤ) : (ℤ × ℤ) × Option ℤ :=
  let x := s - 5 * y
  let score := |x| + |y| * 2
  match acc.2 with
  | none => ((x, y), some score)
  | some bs => if score < bs then ((x, y), some score) else acc

/-- _semitoneToFretspaceOffset: converts a semitone distance into compact
fretspace offsets; the source computes x = semitone - 5*y (so that
semitones = x + 5*y, as its own doc comment states) and keeps the first
candidate of strictly least score over y = -3 .. 3. -/
def semitoneToFretspaceOffset (s : ℤ) : ℤ × ℤ :=
  (fretspaceCandidateYs.foldl (fretspaceStep s) ((s, 0), none)).1

/-- Accumulator invariant for the _semitoneToFretspaceOffset loop: the best
pair so far comes from a scanned y and beats every scanned y. -/
def FretspaceGood (s : ℤ) (acc : (ℤ × ℤ) × Option ℤ) (seen : List ℤ) : Prop :=
  ∃ y₀ ∈ seen, acc = ((s - 5 * y₀, y₀), some (fretspaceScore s y₀)) ∧
    ∀ y ∈ seen, fretspaceScore s y₀ ≤ fretspaceScore s y

theorem fretspaceStep_good (s : ℤ) (acc : (ℤ × ℤ) × Option ℤ) (seen : List ℤ)
    (hg : FretspaceGood s acc seen) (y : ℤ) :
    FretspaceGood s (fretspaceStep s acc y) (seen ++ [y]) := by
  obtain ⟨y₀, hy₀, hacc, hmin⟩ := hg
  subst hacc
  unfold fretspaceStep FretspaceGood
  simp only [fretspaceScore] at hmin ⊢
  split
  · next hlt =>
    refine ⟨y, by simp, rfl, ?_⟩
    intro z hz
    rcases List.mem_append.1 hz with hz | hz
    · exact le_of_lt (lt_of_lt_of_le hlt (hmin z hz))
    · simp at hz; subst hz; exact le_refl _
  · next hge =>
    refine ⟨y₀, by simp [hy₀], rfl, ?_⟩
    intro z hz
    rcases List.mem_append.1 hz with hz | hz
    · exact hmin z hz
    · simp at hz; subst hz; omega

theorem fretspaceFold_good (s : ℤ) :
    ∀ (l : List ℤ) (acc : (ℤ × ℤ) × Option ℤ) (seen : List ℤ),
      FretspaceGood s acc seen →
      FretspaceGood s (l.foldl (fretspaceStep s) acc) (seen ++ l) := by
  intro l
  induction l with
  | nil => intro acc seen h; simpa using h
  | cons y l ih =>
    intro acc seen h
    have h2 := ih (fretspaceStep s acc y) (seen ++ [y]) (fretspaceStep_good s acc seen h y)
    simpa [List.foldl_cons, List.append_assoc] using h2

/-- C9 (amended): the algebraic fallback offset computation returns the
offset (x, y) satisfying x + 5y = s, i.e. x = s - 5y (the claim writes
x - 5y = s, which the code contradicts: see the counterexample theorem),
minimizing |x| + 2|y| over y in [-3, 3]. -/
theorem semitoneToFretspaceOffset_minimal (s : ℤ) :
    (semitoneToFretspaceOffset s).1 = s - 5 * (semitoneToFretspaceOffset s).2 ∧
      -3 ≤ (semitoneToFretspaceOffset s).2 ∧ (semitoneToFretspaceOffset s).2 ≤ 3 ∧
      ∀ y : ℤ, -3 ≤ y → y ≤ 3 →
        |(semitoneToFretspaceOffset s).1| + |(semitoneToFretspaceOffset s).2| * 2 ≤
          |s - 5 * y| + |y| * 2 := by
  have hinit : FretspaceGood s (fretspaceStep s ((s, 0), none) (-3)) [-3] :=
    ⟨-3, by simp, rfl, by intro y hy; simp at hy; subst hy; exact le_refl _⟩
  have hfold := fretspaceFold_good s [-2, -1, 0, 1, 2, 3]
    (fretspaceStep s ((s, 0), none) (-3)) [-3] hinit
  obtain ⟨y₀, hy₀, hacc, hmin⟩ := hfold
  have hres : semitoneToFretspaceOffset s = (s - 5 * y₀, y₀) := by
    unfold semitoneToFretspaceOffset fretspaceCandidateYs
    rw [List.foldl_cons, hacc]
  have hy₀r : y₀ = -3 ∨ y₀ = -2 ∨ y₀ = -1 ∨ y₀ = 0 ∨ y₀ = 1 ∨ y₀ = 2 ∨ y₀ = 3 := by
    simpa using hy₀
  refine ⟨by rw [hres], by rw [hres]; omega, by rw [hres]; omega, ?_⟩
  intro y h1 h2
  have hy : y ∈ ([-3] : List ℤ) ++ [-2, -1, 0, 1, 2, 3] := by
    simp only [List.cons_append, List.nil_append, List.mem_cons, List.mem_singleton]
    omega
  have := hmin y hy
  rw [hres]
  simpa [fretspaceScore] using this

/-- Counterexample to C9 as stated: at semitone distance 7 the code
returns the offset (2, 1), for which x - 5y = -3, not 7 (the code in
fact guarantees x + 5y = s). -/
theorem semitoneToFretspaceOffset_claim_counterexample :
    semitoneToFretspaceOffset 7 = (2, 1) ∧
      ¬ ((semitoneToFretspaceOffset 7).1 - 5 * (semitoneToFretspaceOffset 7).2 = 7) := by
  constructor <;> decide

/-- Witness for C9 at s = 7, y = 1: the computed offset (2, 1) satisfies
the lattice equation and its score is at most the score at y = 1. -/
theorem semitoneToFretspaceOffset_minimal_witness :
    (semitoneToFretspaceOffset 7).1 = 7 - 5 * (semitoneToFretspaceOffset 7).2 ∧
      |(semitoneToFretspaceOffset 7).1| + |(semitoneToFretspaceOffset 7).2| * 2 ≤
        |(7 : ℤ) - 5 * 1| + |(1 : ℤ)| * 2 := by
  obtain ⟨h1, _, _, h4⟩ := semitoneToFretspaceOffset_minimal 7
  exact ⟨h1, h4 1 (by norm_num) (by norm_num)⟩

/-- Roman numeral order used by _parseDegreeToken. -/
def degreeOrder : List String := ["I", "II", "III", "IV", "V", "VI", "VII"]

/-- Major-scale semitone table [0,2,4,5,7,9,11] shared by the degree and
cell-label parsers. -/
def scaleSemitones : List ℤ := [0, 2, 4, 5, 7, 9, 11]

/-- The source reduction ((x % 12) + 12) % 12, with the JavaScript
truncating remainder (Int.tmod). -/
def jsMod12 (x : ℤ) : ℤ := (Int.tmod x 12 + 12).tmod 12

/-- JavaScript String.prototype.trim on a character list: drops leading and
trailing whitespace (structural counterpart of String.trim, which is
defined by well-founded recursion and does not reduce in the kernel). -/
def jsTrimChars (cs : List Char) : List Char :=
  ((cs.dropWhile Char.isWhitespace).reverse.dropWhile Char.isWhitespace).reverse

/-- The leading accidental loop shared by _parseDegreeToken and
_cellLabelToSemitoneOffset: consumes a leading run of # and b characters,
returning the cumulative accidental and the remaining characters. -/
def stripAccidentals : List Char → ℤ × List Char
  | [] => (0, [])
  | c :: rest =>
    if c = '#' then
      let p := stripAccidentals rest
      (p.1 + 1, p.2)
    else if c = 'b' then
      let p := stripAccidentals rest
      (p.1 - 1, p.2)
    else (0, c :: rest)

/-- Parsed degree token: diatonic index 0..6 plus accidental. -/
structure DegreeParse where
  degreeIndex : ℕ
  accidental : ℤ
deriving DecidableEq, Repr

/-- _parseDegreeToken after the initial trim, on the character list. -/
def parseDegreeTokenChars (cs : List Char) : Option DegreeParse :=
  if cs = [] then none
  else if (stripAccidentals cs).2 = [] then none
  else
    match degreeOrder.findIdx?
        (fun d => d == String.mk ((stripAccidentals cs).2.map Char.toUpper)) with
    | none => none
    | some idx => some ⟨idx, (stripAccidentals cs).1⟩

/-- _parseDegreeToken: trims, strips accidentals, uppercases, and looks the
numeral up in degreeOrder. -/
def parseDegreeToken (s : String) : Option DegreeParse :=
  parseDegreeTokenChars (jsTrimChars s.data)

/-- Semitone computation of _degreeToSemitoneOffset on parsed characters. -/
def degreeToSemitoneChars (cs : List Char) : Option ℤ :=
  match parseDegreeTokenChars cs with
  | none => none
  | some parsed => some (jsMod12 (scaleSemitones.getD parsed.degreeIndex 0 + parsed.accidental))

/-- _degreeToSemitoneOffset: scale-degree token to semitone offset from I. -/
def degreeToSemitoneOffset (s : String) : Option ℤ :=
  match parseDegreeToken s with
  | none => none
  | some parsed => some (jsMod12 (scaleSemitones.getD parsed.degreeIndex 0 + parsed.accidental))

/-- _degreeToScaleIndex. -/
def degreeToScaleIndex (s : String) : Option ℕ :=
  (parseDegreeToken s).map (fun p => p.degreeIndex)

/-- Scale-relative third interval table of _getThirdSemitoneOffsetForDegree. -/
def thirdIntervalsByScaleIndex : List ℤ := [4, 3, 3, 4, 4, 3, 3]

/-- _getThirdSemitoneOffsetForDegree. -/
def getThirdSemitoneOffsetForDegree (s : String) : Option ℤ :=
  match degreeToSemitoneOffset s, degreeToScaleIndex s with
  | some rootSemitone, some rootScaleIndex =>
      some (jsMod12 (rootSemitone + thirdIntervalsByScaleIndex.getD rootScaleIndex 0))
  | _, _ => none

/-- parseInt on the remaining label characters: value of the leading digit
run, none when there is no leading digit (parseInt returning NaN). -/
def parseLeadingNat (cs : List Char) : Option ℕ :=
  let digits := cs.takeWhile Char.isDigit
  if digits = [] then none
  else some (digits.foldl (fun n c => n * 10 + (c.toNat - 48)) 0)

/-- _cellLabelToSemitoneOffset: brick cell label (for example "4" or "b6")
to semitone offset from "1". -/
def cellLabelToSemitoneOffset (s : String) : Option ℤ :=
  let t := jsTrimChars s.data
  if t = [] then none
  else
    let p := stripAccidentals t
    match parseLeadingNat p.2 with
    | none => none
    | some n =>
        if n = 0 ∨ n < 1 ∨ 7 < n then none
        else some (jsMod12 (scaleSemitones.getD (n - 1) 0 + p.1))

/-- Cumulative accidental value of a leading run, per the spec wording. -/
def accSum : List Char → ℤ
  | [] => 0
  | c :: rest => (if c = '#' then 1 else if c = 'b' then -1 else 0) + accSum rest

theorem jsMod12_bounds (x : ℤ) : 0 ≤ jsMod12 x ∧ jsMod12 x < 12 := by
  have hlow : -12 < x.tmod 12 := by
    cases x with
    | ofNat n =>
        have := Int.tmod_nonneg (a := Int.ofNat n) 12 (Int.ofNat_nonneg n)
        omega
    | negSucc m =>
        have h : Int.tmod (Int.negSucc m) 12 = -(((m + 1) % 12 : ℕ) : ℤ) := rfl
        have h2 : (m + 1) % 12 < 12 := Nat.mod_lt _ (by norm_num)
        omega
  have hup : x.tmod 12 < 12 := Int.tmod_lt_of_pos x (by norm_num)
  unfold jsMod12
  rw [Int.tmod_eq_emod (by omega) (by norm_num)]
  omega

theorem stripAccidentals_sharp (rest : List Char) :
    stripAccidentals ('#' :: rest) =
      ((stripAccidentals rest).1 + 1, (stripAccidentals rest).2) := by
  simp [stripAccidentals]

theorem stripAccidentals_flat (rest : List Char) :
    stripAccidentals ('b' :: rest) =
      ((stripAccidentals rest).1 - 1, (stripAccidentals rest).2) := by
  simp [stripAccidentals]

theorem stripAccidentals_append (accs : List Char)
    (h : ∀ c ∈ accs, c = '#' ∨ c = 'b') (c : Char) (cs : List Char)
    (hc : c ≠ '#' ∧ c ≠ 'b') :
    stripAccidentals (accs ++ c :: cs) = (accSum accs, c :: cs) := by
  induction accs with
  | nil =>
      simp only [List.nil_append, accSum]
      unfold stripAccidentals
      rw [if_neg hc.1, if_neg hc.2]
  | cons a accs ih =>
      have hrest : ∀ x ∈ accs, x = '#' ∨ x = 'b' := fun x hx => h x (by simp [hx])
      have ihr := ih hrest
      rcases h a (by simp) with ha | ha <;> subst ha
      · rw [List.cons_append, stripAccidentals_sharp, ihr]
        refine Prod.ext ?_ rfl
        simp [accSum]
        ring
      · rw [List.cons_append, stripAccidentals_flat, ihr]
        refine Prod.ext ?_ rfl
        simp [accSum]
        ring

theorem parseDegreeTokenChars_accidental_run (accs : List Char)
    (h : ∀ c ∈ accs, c = '#' ∨ c = 'b') (c : Char) (cs : List Char)
    (hc1 : c ≠ '#') (hc2 : c ≠ 'b') (idx : ℕ)
    (hfind : degreeOrder.findIdx?
      (fun d => d == String.mk ((c :: cs).map Char.toUpper)) = some idx) :
    parseDegreeTokenChars (accs ++ c :: cs) = some ⟨idx, accSum accs⟩ := by
  unfold parseDegreeTokenChars
  rw [stripAccidentals_append accs h c cs ⟨hc1, hc2⟩]
  rw [if_neg (by simp), if_neg (by simp), hfind]

/-- C5: degree-token parsing maps a leading run of # and b characters to a
cumulative plus-or-minus-one accidental, maps the remaining roman numeral
I..VII through the major-scale table [0,2,4,5,7,9,11] (shown here for the
uppercase numerals; case-insensitivity is witnessed by "vi"), adds the
accidental and reduces mod 12 into 0..11; degreeToSemitone "bVII" = 10 and
degreeToSemitone "vi" = 9, and invalid strings yield none. -/
theorem degreeToSemitoneOffset_spec :
    degreeToSemitoneOffset "bVII" = some 10 ∧
      degreeToSemitoneOffset "vi" = some 9 ∧
      degreeToSemitoneOffset "VIII" = none ∧
      degreeToSemitoneOffset "" = none ∧
      degreeToSemitoneOffset "#b" = none ∧
      (∀ s : String, degreeToSemitoneOffset s = degreeToSemitoneChars (jsTrimChars s.data)) ∧
      (∀ s : String, ∀ r : ℤ, degreeToSemitoneOffset s = some r → 0 ≤ r ∧ r < 12) ∧
      (∀ accs : List Char, (∀ c ∈ accs, c = '#' ∨ c = 'b') → ∀ i : Fin 7,
        degreeToSemitoneChars (accs ++ (degreeOrder.getD i "").data) =
          some (jsMod12 (scaleSemitones.getD i 0 + accSum accs))) := by
  refine ⟨by decide, by decide, by decide, by decide, by decide, fun s => rfl, ?_, ?_⟩
  · intro s r h
    unfold degreeToSemitoneOffset at h
    rcases hp : parseDegreeToken s with _ | parsed
    · rw [hp] at h; exact absurd h (by simp)
    · rw [hp] at h
      simp only [Option.some.injEq] at h
      rw [← h]
      exact jsMod12_bounds _
  · intro accs h i
    fin_cases i
    · show degreeToSemitoneChars (accs ++ ['I']) =
        some (jsMod12 (0 + accSum accs))
      unfold degreeToSemitoneChars
      rw [parseDegreeTokenChars_accidental_run accs h 'I' [] (by decide)
        (by decide) 0 (by decide)]
      rfl
    · show degreeToSemitoneChars (accs ++ ['I', 'I']) =
        some (jsMod12 (2 + accSum accs))
      unfold degreeToSemitoneChars
      rw [parseDegreeTokenChars_accidental_run accs h 'I' ['I'] (by decide)
        (by decide) 1 (by decide)]
      rfl
    · show degreeToSemitoneChars (accs ++ ['I', 'I', 'I']) =
        some (jsMod12 (4 + accSum accs))
      unfold degreeToSemitoneChars
      rw [parseDegreeTokenChars_accidental_run accs h 'I' ['I', 'I'] (by decide)
        (by decide) 2 (by decide)]
      rfl
    · show degreeToSemitoneChars (accs ++ ['I', 'V']) =
        some (jsMod12 (5 + accSum accs))
      unfold degreeToSemitoneChars
      rw [parseDegreeTokenChars_accidental_run accs h 'I' ['V'] (by decide)
        (by decide) 3 (by decide)]
      rfl
    · show degreeToSemitoneChars (accs ++ ['V']) =
        some (jsMod12 (7 + accSum accs))
      unfold degreeToSemitoneChars
      rw [parseDegreeTokenChars_accidental_run accs h 'V' [] (by decide)
        (by decide) 4 (by decide)]
      rfl
    · show degreeToSemitoneChars (accs ++ ['V', 'I']) =
        some (jsMod12 (9 + accSum accs))
      unfold degreeToSemitoneChars
      rw [parseDegreeTokenChars_accidental_run accs h 'V' ['I'] (by decide)
        (by decide) 5 (by decide)]
      rfl
    · show degreeToSemitoneChars (accs ++ ['V', 'I', 'I']) =
        some (jsMod12 (11 + accSum accs))
      unfold degreeToSemitoneChars
      rw [parseDegreeTokenChars_accidental_run accs h 'V' ['I', 'I'] (by decide)
        (by decide) 6 (by decide)]
      rfl

/-- Witness for C5: the range clause instantiated at "bVII" (semitone 10
lies in 0..11) and the structural clause at accidental run "b" and numeral
index 6 (bVII). -/
theorem degreeToSemitoneOffset_spec_witness :
    (0 ≤ (10 : ℤ) ∧ (10 : ℤ) < 12) ∧
      degreeToSemitoneChars (['b'] ++ (degreeOrder.getD ((6 : Fin 7) : ℕ) "").data) =
        some (jsMod12 (scaleSemitones.getD ((6 : Fin 7) : ℕ) 0 + accSum ['b'])) :=
  ⟨degreeToSemitoneOffset_spec.2.2.2.2.2.2.1 "bVII" 10 degreeToSemitoneOffset_spec.1,
   degreeToSemitoneOffset_spec.2.2.2.2.2.2.2 ['b'] (by decide) 6⟩

/-- A grid cell position in world cell units. -/
structure Cell where
  xCw : ℚ
  yCw : ℚ
deriving DecidableEq

/-- A chord shape: root, third and fifth world cells. -/
structure Shape where
  root : Cell
  third : Cell
  fifth : Cell
deriving DecidableEq

/-- A brick placed on the fretscape: cell labels plus world top-left
(the bricks array entries {brick, xCw, yCw}). -/
structure BrickItem where
  cellData : List (List String)
  xCw : ℚ
  yCw : ℚ
deriving DecidableEq

/-- Default Brick cellData (the Brick constructor). -/
def defaultCellData : List (List String) :=
  [["7", "b7", "6", "b6", "5"],
   ["3", "b3", "2", "b2", "1"],
   ["6", "b6", "5", "b5", "4"]]

/-- One timed note event of a beat plan; kind none is a plain bass-run
note, "strum" and "slap" come from strum patterns. -/
structure NoteEvent where
  kind : Option String
  cell : Option Cell
  delayBeats : ℚ
  durationBeats : ℚ
deriving DecidableEq

/-- One d/u/s action of the strum timeline. -/
structure StrumAction where
  symbol : Char
  time : ℚ
deriving DecidableEq

/-- The frame returned by _getProgressionBeatPlan. -/
structure BeatPlan where
  noteCell : Option Cell
  noteCells : List Cell
  noteEvents : List NoteEvent
  anchorCell : Option Cell
  shape : Shape
deriving DecidableEq

/-- An audio dispatch recorded by the transport: a plucked dot tone
(_playDotTone) or a percussive slap (_playSlapTone). -/
inductive ToneDispatch
  | dot (xCw yCw delaySec durationSec : ℚ) (sustainHold : Bool)
  | slap (delaySec : ℚ)
deriving DecidableEq

/-- A root entry of _getActiveProgressionRootEntries. -/
structure RootEntry where
  degreeToken : String
  rootCell : Cell
deriving DecidableEq

/-- Fixed 4 beats per chord (_progressionBeatsPerChord). -/
def progressionBeatsPerChord : ℕ := 4

/-- The playback-relevant Fretscape state.  External engines are modelled
by logs: drumBeats/drumResets/drumStops record drum-engine calls,
audioLog records tone dispatches, and notifications counts firings of
onProgressionPlaybackStateChange.  The wall-clock field
_progressionPulseStartMs is outside the model. -/
structure FretState where
  bricks : List BrickItem
  isLeftHanded : Bool
  isVerticallyMirrored : Bool
  activeProgressionDegrees : Option (List String)
  progressionPlaybackMode : String
  activeRiffBeats : Option (List (List (ℤ × ℤ)))
  activeStrumBeats : Option (List String)
  activeStrumTimeline : Option (List StrumAction)
  strumStrokeGapBeats : ℚ
  progressionBpm : ℤ
  isProgressionPlaying : Bool
  progressionBeatTimer : Option ℚ
  progressionAnimationFrame : Bool
  progressionBeatIndex : ℕ
  progressionPulseFromCell : Option Cell
  progressionPulseToCell : Option Cell
  progressionPulseFromCells : List Cell
  progressionPulseToCells : List Cell
  progressionPulseProgress : ℚ
  progressionGuidePairFrom : Option Shape
  progressionGuidePairTo : Option Shape
  hasDrumEngine : Bool
  drumBeats : List ℕ
  drumResets : ℕ
  drumStops : ℕ
  audioLog : List ToneDispatch
  notifications : ℕ
deriving DecidableEq

/-- _worldXToDisplayX. -/
def worldXToDisplayX (s : FretState) (xCw : ℚ) : ℚ :=
  if s.isLeftHanded then widthCw - xCw else xCw

/-- _displayXToWorldX. -/
def displayXToWorldX (s : FretState) (xCw : ℚ) : ℚ :=
  if s.isLeftHanded then widthCw - xCw else xCw

/-- _worldYToDisplayY. -/
def worldYToDisplayY (s : FretState) (yCw : ℚ) : ℚ :=
  if s.isVerticallyMirrored then heightCw - yCw else yCw

/-- _displayYToWorldY. -/
def displayYToWorldY (s : FretState) (yCw : ℚ) : ℚ :=
  if s.isVerticallyMirrored then heightCw - yCw else yCw

/-- _fretspaceDeltaToWorldFromRoot.  The root cell is a concrete Cell in
this model, so the null and non-number guards of the source drop out. -/
def fretspaceDeltaToWorldFromRoot (s : FretState) (rootCell : Cell)
    (xDelta yDelta : ℚ) : Cell :=
  let rootDisplayX := worldXToDisplayX s rootCell.xCw
  let rootDisplayY := worldYToDisplayY s rootCell.yCw
  let displayDeltaX := if s.isLeftHanded then xDelta else -xDelta
  let displayDeltaY := if s.isVerticallyMirrored then -yDelta else yDelta
  ⟨displayXToWorldX s (rootDisplayX + displayDeltaX),
   displayYToWorldY s (rootDisplayY + displayDeltaY)⟩

/-- Row-major scan of _getBrickOriginOffset for the first "1" cell. -/
def originOffsetAux : List (List String) → ℕ → Option (ℕ × ℕ)
  | [], _ => none
  | row :: rest, r =>
      match row.findIdx? (fun v => v == "1") with
      | some c => some (c, r)
      | none => originOffsetAux rest (r + 1)

/-- _getBrickOriginOffset: (col, row) of the first "1" cell, defaulting to
(2, 1). -/
def getBrickOriginOffset (cellData : List (List String)) : ℕ × ℕ :=
  (originOffsetAux cellData 0).getD (2, 1)

/-- _getOneCellCenter: world center of the first brick "1" cell, or the
default center when no brick exists. -/
def getOneCellCenter (s : FretState) : ℚ × ℚ :=
  match s.bricks with
  | [] => defaultOneCellCenterCw
  | item :: _ =>
      let off := getBrickOriginOffset item.cellData
      (item.xCw + (off.1 : ℚ), item.yCw + (off.2 : ℚ))

/-- _getDefaultBrickTopLeft: top-left for a default brick centered at the
configured origin. -/
def getDefaultBrickTopLeft : ℚ × ℚ :=
  let off := getBrickOriginOffset defaultCellData
  (defaultOneCellCenterCw.1 - (off.1 : ℚ), defaultOneCellCenterCw.2 - (off.2 : ℚ))

/-- The row-major label scan shared by _findRootCellInFirstBrick and
_findRootCellOnTopStringsInFirstBrick: first (row, col) with row at least
startRow whose label has the target semitone.  The source computes the
world cell inside the loop; returning the indices first is equivalent. -/
def scanBrickRowsForSemitone (startRow : ℕ) (data : List (List String))
    (target : ℤ) : Option (ℕ × ℕ) :=
  data.enum.findSome? (fun p =>
    if p.1 < startRow then none
    else p.2.enum.findSome? (fun q =>
      if cellLabelToSemitoneOffset q.2 = some target then some (p.1, q.1) else none))

/-- _findRootCellInFirstBrick: scan the bottom two rows of the first brick
for a label matching the degree token semitone. -/
def findRootCellInFirstBrick (s : FretState) (degreeToken : String) : Option Cell :=
  match s.bricks with
  | [] => none
  | firstBrick :: _ =>
      match degreeToSemitoneOffset degreeToken with
      | none => none
      | some target =>
          match scanBrickRowsForSemitone (firstBrick.cellData.length - 2)
              firstBrick.cellData target with
          | none => none
          | some rc => some ⟨firstBrick.xCw + (rc.2 : ℚ), firstBrick.yCw + (rc.1 : ℚ)⟩

/-- _findRootCellOnTopStringsInFirstBrick: the source duplicates the body
of _findRootCellInFirstBrick (same bottom-two-rows scan). -/
def findRootCellOnTopStringsInFirstBrick (s : FretState) (degreeToken : String) :
    Option Cell :=
  match s.bricks with
  | [] => none
  | firstBrick :: _ =>
      match degreeToSemitoneOffset degreeToken with
      | none => none
      | some target =>
          match scanBrickRowsForSemitone (firstBrick.cellData.length - 2)
              firstBrick.cellData target with
          | none => none
          | some rc => some ⟨firstBrick.xCw + (rc.2 : ℚ), firstBrick.yCw + (rc.1 : ℚ)⟩

/-- All (row, col, label) triples of a brick in row-major order. -/
def brickCells (data : List (List String)) : List (ℕ × ℕ × String) :=
  data.enum.flatMap (fun p => p.2.enum.map (fun q => (p.1, q.1, q.2)))

/-- _findNearestCellInFirstBrickBySemitone: first strict minimum of the
squared distance to the reference cell over matching labels. -/
def findNearestCellInFirstBrickBySemitone (s : FretState) (target : ℤ)
    (referenceCell : Cell) : Option Cell :=
  match s.bricks with
  | [] => none
  | firstBrick :: _ =>
      ((brickCells firstBrick.cellData).foldl
        (fun (acc : Option Cell × Option ℚ) rc =>
          if cellLabelToSemitoneOffset rc.2.2 = some target then
            let cand : Cell :=
              ⟨firstBrick.xCw + (rc.2.1 : ℚ), firstBrick.yCw + (rc.1 : ℚ)⟩
            let dist := (cand.xCw - referenceCell.xCw) * (cand.xCw - referenceCell.xCw) +
              (cand.yCw - referenceCell.yCw) * (cand.yCw - referenceCell.yCw)
            match acc.2 with
            | none => (some cand, some dist)
            | some bd => if dist < bd then (some cand, some dist) else acc
          else acc)
        (none, none)).1

/-- _getActiveProgressionRootEntries: per token, the bottom-rows label
match when a brick exists, else the algebraic fretspace fallback from the
dynamic origin; invalid tokens contribute nothing. -/
def getActiveProgressionRootEntries (s : FretState) : List RootEntry :=
  match s.activeProgressionDegrees with
  | none => []
  | some degrees =>
      degrees.filterMap (fun token =>
        match findRootCellInFirstBrick s token with
        | some rootCell => some ⟨token, rootCell⟩
        | none =>
            match degreeToSemitoneOffset token with
            | none => none
            | some semitone =>
                let offset := semitoneToFretspaceOffset semitone
                let oc := getOneCellCenter s
                some ⟨token, fretspaceDeltaToWorldFromRoot s ⟨oc.1, oc.2⟩
                  (offset.1 : ℚ) (offset.2 : ℚ)⟩)

/-- _getActiveProgressionRootCells. -/
def getActiveProgressionRootCells (s : FretState) : List Cell :=
  (getActiveProgressionRootEntries s).map (fun e => e.rootCell)

/-- _getCellAboveInFirstBrick: the cell one row above, bounded by the
first brick vertical extent. -/
def getCellAboveInFirstBrick (s : FretState) (cell : Cell) : Option Cell :=
  match s.bricks with
  | [] => none
  | firstBrick :: _ =>
      let minY := firstBrick.yCw
      let maxY := firstBrick.yCw + brickHeightCw - 1
      let targetY := cell.yCw - 1
      if targetY < minY ∨ targetY > maxY then none
      else some ⟨cell.xCw, targetY⟩

/-- _getChordShapeForRootIndex: root from the entry, fifth one row above,
third the nearest matching-label cell; missing parts fall back to root. -/
def getChordShapeForRootIndex (s : FretState) (rootEntries : List RootEntry)
    (rootIndex : ℕ) : Option Shape :=
  if rootEntries.isEmpty then none
  else
    match rootEntries.get? (rootIndex % rootEntries.length) with
    | none => none
    | some entry =>
        let root := entry.rootCell
        let fifth := getCellAboveInFirstBrick s root
        let third := match getThirdSemitoneOffsetForDegree entry.degreeToken with
          | none => none
          | some ts => findNearestCellInFirstBrickBySemitone s ts root
        some ⟨root, third.getD root, fifth.getD root⟩

/-- A run specification of _getBassRunSpec. -/
structure BassRunSpec where
  sequence : List String
  shapeStrategy : String
  guideSequence : List String
deriving DecidableEq

/-- _getBassRunSpec: normalized bass-run spec for the active mode. -/
def getBassRunSpec (s : FretState) : BassRunSpec :=
  let mode := if s.progressionPlaybackMode = "" then "root" else s.progressionPlaybackMode
  if mode = "root" then ⟨["root", "root", "root", "root"], "default", []⟩
  else if mode = "root5th" then
    ⟨["root", "fifth", "root", "fifth"], "default", ["root", "fifth"]⟩
  else if mode = "arpeggio135" then
    ⟨["root", "third", "fifth", "root"], "default", ["root", "third", "fifth"]⟩
  else if mode = "eshape513" then
    ⟨["root", "third", "fifth", "root"], "eshape513", ["root", "third", "fifth"]⟩
  else if mode = "cshape1351" then
    ⟨["root", "third", "fifth", "root"], "cshape1351", ["root", "third", "fifth", "root"]⟩
  else ⟨["root", "root", "root", "root"], "default", []⟩

/-- _getEshape513ForDegreeToken: root relocated on the guide rows, third
at fretspace (-1, +1) for a major third else (-2, +1), fifth at (0, -1). -/
def getEshape513ForDegreeToken (s : FretState) (degreeToken : String)
    (fallbackShape : Shape) : Shape :=
  let root := (findRootCellOnTopStringsInFirstBrick s degreeToken).getD fallbackShape.root
  let thirdInterval : ℤ :=
    match degreeToSemitoneOffset degreeToken, getThirdSemitoneOffsetForDegree degreeToken with
    | some rootSemitone, some thirdSemitone => (thirdSemitone - rootSemitone + 12).tmod 12
    | _, _ => 3
  let thirdXDelta : ℚ := if thirdInterval = 4 then -1 else -2
  ⟨root, fretspaceDeltaToWorldFromRoot s root thirdXDelta 1,
   fretspaceDeltaToWorldFromRoot s root 0 (-1)⟩

/-- _getCshape1351ForDegreeToken: same root and third as the E shape, the
fifth at fixed fretspace offset (-3, +2) from the root. -/
def getCshape1351ForDegreeToken (s : FretState) (degreeToken : String)
    (fallbackShape : Shape) : Shape :=
  let eshape := getEshape513ForDegreeToken s degreeToken fallbackShape
  ⟨eshape.root, eshape.third, fretspaceDeltaToWorldFromRoot s eshape.root (-3) 2⟩

/-- _getBassRunShapeForChordIndex: base shape for the chord index, then
the mode strategy applied on top. -/
def getBassRunShapeForChordIndex (s : FretState) (rootEntries : List RootEntry)
    (chordIndex : ℕ) (spec : BassRunSpec) : Option Shape :=
  if rootEntries.isEmpty then none
  else
    match rootEntries.get? (chordIndex % rootEntries.length),
        getChordShapeForRootIndex s rootEntries (chordIndex % rootEntries.length) with
    | some chordEntry, some shape =>
        if spec.shapeStrategy = "eshape513" then
          some (getEshape513ForDegreeToken s chordEntry.degreeToken shape)
        else if spec.shapeStrategy = "cshape1351" then
          some (getCshape1351ForDegreeToken s chordEntry.degreeToken shape)
        else some shape
    | _, _ => none

/-- _resolveBassRunTokenCell. -/
def resolveBassRunTokenCell (shape : Shape) (token : String) : Option Cell :=
  if token = "rest" then none
  else if token = "hold" then some shape.root
  else if token = "third" then some shape.third
  else if token = "fifth" then some shape.fifth
  else some shape.root

/-- _buildBassRunNoteEvents: one whole-beat note for the token cell;
rest and hold emit nothing. -/
def buildBassRunNoteEvents (shape : Shape) (token : String) : List NoteEvent :=
  if token = "rest" ∨ token = "hold" then []
  else
    match resolveBassRunTokenCell shape token with
    | some cell => [⟨none, some cell, 0, 1⟩]
    | none => []

/-- The lookahead of _buildStrumNoteEventsForBeat: the time of the first
later action strictly after t, clamped at the bar end. -/
def strumNextBoundary (timeline : List StrumAction) (i : ℕ) (t : ℚ) : ℚ :=
  match (timeline.drop (i + 1)).find? (fun a => decide (t < a.time)) with
  | some a => min (progressionBeatsPerChord : ℚ) a.time
  | none => (progressionBeatsPerChord : ℚ)

/-- _buildStrumNoteEventsForBeat: d/u strokes spread root/third/fifth by
the stroke gap inside the action window, s emits one slap. -/
def buildStrumNoteEventsForBeat (s : FretState) (shape : Shape) (beatInChord : ℕ) :
    List NoteEvent :=
  match s.activeStrumTimeline with
  | none => []
  | some timeline =>
      if timeline.isEmpty then []
      else
        let beatStart : ℚ := (beatInChord : ℚ)
        let strokeDelay : ℚ :=
          max (1 / 100) (if s.strumStrokeGapBeats = 0 then 1 / 20 else s.strumStrokeGapBeats)
        timeline.enum.flatMap (fun p =>
          let action := p.2
          if action.time < beatStart ∨ beatStart + 1 ≤ action.time then []
          else if action.symbol = 's' then
            if 0 ≤ action.time - beatStart ∧ action.time - beatStart < 1 then
              [⟨some "slap", some shape.root, action.time - beatStart, 2 / 25⟩]
            else []
          else if action.symbol = 'd' ∨ action.symbol = 'u' then
            let nextBoundary := strumNextBoundary timeline p.1 action.time
            let order := if action.symbol = 'u' then ["fifth", "third", "root"]
              else ["root", "third", "fifth"]
            order.enum.filterMap (fun q =>
              match resolveBassRunTokenCell shape q.2 with
              | none => none
              | some strikeCell =>
                  let strikeBeat := action.time + (q.1 : ℚ) * strokeDelay
                  if nextBoundary ≤ strikeBeat ∨ (progressionBeatsPerChord : ℚ) ≤ strikeBeat
                  then none
                  else if strikeBeat - beatStart < 0 ∨ 1 ≤ strikeBeat - beatStart then none
                  else some ⟨some "strum", some strikeCell, strikeBeat - beatStart,
                    max (1 / 20) (nextBoundary - strikeBeat)⟩)
          else [])

/-- _getBassRunRestAnchor: root of the next chord shape, for rest-beat
animation continuity. -/
def getBassRunRestAnchor (s : FretState) (rootEntries : List RootEntry)
    (chordIndex : ℕ) (spec : BassRunSpec) : Option Cell :=
  match getBassRunShapeForChordIndex s rootEntries (chordIndex + 1) spec with
  | some nextShape => some nextShape.root
  | none => none

/-- _getProgressionBeatPlan: chordIndex = beatIndex / 4 and beatInChord =
beatIndex mod 4; event sourcing precedence riff, then strum, then
bass-run; rest and hold keep anchor continuity. -/
def getProgressionBeatPlan (s : FretState) (beatIndex : ℕ)
    (rootEntries : List RootEntry) : Option BeatPlan :=
  if rootEntries.isEmpty then none
  else
    let spec := getBassRunSpec s
    let chordIndex := beatIndex / progressionBeatsPerChord
    let beatInChord := beatIndex % progressionBeatsPerChord
    let hasStrum : Bool := match s.activeStrumBeats with
      | some beats => beats.length == progressionBeatsPerChord
      | none => false
    match getBassRunShapeForChordIndex s rootEntries chordIndex
        (if hasStrum then ⟨[], "cshape1351", []⟩ else spec) with
    | none => none
    | some shape =>
        let token := if hasStrum then "hold"
          else spec.sequence.getD (beatInChord % spec.sequence.length) "root"
        let tokenCell := resolveBassRunTokenCell shape token
        let riffEvents : List NoteEvent :=
          match s.activeRiffBeats with
          | some riffBeats =>
              if riffBeats.length = 4 then
                match riffBeats.get? (beatInChord % 4) with
                | some riffBeat =>
                    riffBeat.map (fun rxy =>
                      ⟨none, some (fretspaceDeltaToWorldFromRoot s shape.root
                        (rxy.1 : ℚ) (rxy.2 : ℚ)), 0, 1⟩)
                | none => []
              else []
          | none => []
        let noteCells1 := riffEvents.filterMap (fun e => e.cell)
        let strumEvents := buildStrumNoteEventsForBeat s shape beatInChord
        let noteEvents2 := if noteCells1.isEmpty ∧ hasStrum then strumEvents else riffEvents
        let noteCells2 := if noteCells1.isEmpty ∧ hasStrum then
            (let cs := strumEvents.filterMap (fun e => e.cell)
             if cs.isEmpty then [shape.root] else cs)
          else noteCells1
        let bassEvents := buildBassRunNoteEvents shape token
        let noteEvents3 := if noteCells2.isEmpty then bassEvents else noteEvents2
        let noteCells3 := if noteCells2.isEmpty then bassEvents.filterMap (fun e => e.cell)
          else noteCells2
        let noteCells4 := if noteCells3.isEmpty then
            (match tokenCell with | some tc => [tc] | none => [])
          else noteCells3
        let anchorCell1 : Option Cell :=
          match noteCells4.head? with
          | some hc => some hc
          | none => tokenCell
        let anchorCell2 := if anchorCell1.isNone ∧ token = "rest" then
            getBassRunRestAnchor s rootEntries chordIndex spec
          else anchorCell1
        some ⟨anchorCell1, noteCells4, noteEvents3, anchorCell2, shape⟩

/-- _getProgressionBeatMs: one beat in milliseconds, 60000 / bpm. -/
def getProgressionBeatMs (s : FretState) : ℚ := 60000 / (s.progressionBpm : ℚ)

/-- hasProgressionPath: the selected progression maps to at least one
root point. -/
def hasProgressionPath (s : FretState) : Bool :=
  !(getActiveProgressionRootCells s).isEmpty

/-- isProgressionPlaybackActive. -/
def isProgressionPlaybackActive (s : FretState) : Bool :=
  s.isProgressionPlaying

/-- _clearProgressionPulse. -/
def clearProgressionPulse (s : FretState) : FretState :=
  { s with progressionPulseFromCell := none, progressionPulseToCell := none,
           progressionPulseFromCells := [], progressionPulseToCells := [],
           progressionPulseProgress := 0 }

/-- _notifyProgressionPlaybackStateChange, counted by the observer log. -/
def notifyProgressionPlaybackStateChange (s : FretState) : FretState :=
  { s with notifications := s.notifications + 1 }

/-- _restartProgressionBeatTimer: always clears the running clock, then
recreates it at the current BPM only while playing. -/
def restartProgressionBeatTimer (s : FretState) : FretState :=
  let s1 := { s with progressionBeatTimer := none }
  if !s1.isProgressionPlaying then s1
  else { s1 with progressionBeatTimer := some (getProgressionBeatMs s1) }

/-- setProgressionBpm: parseInt then the two clamp steps (the !next test
catches 0), then a clock restart while playing. -/
def setProgressionBpm (s : FretState) (bpm : ℤ) : FretState :=
  let next1 := if bpm = 0 ∨ bpm < 60 then 60 else bpm
  let next2 := if next1 > 200 then 200 else next1
  let s1 := { s with progressionBpm := next2 }
  if s1.isProgressionPlaying then restartProgressionBeatTimer s1 else s1

/-- _playDrumBeat: forwarded to the drum engine when one is attached. -/
def playDrumBeat (s : FretState) (beatIndex : ℕ) : FretState :=
  if s.hasDrumEngine then { s with drumBeats := s.drumBeats ++ [beatIndex] } else s

/-- _startProgressionPulseLoop: after it, an animation frame is active. -/
def startProgressionPulseLoop (s : FretState) : FretState :=
  { s with progressionAnimationFrame := true }

/-- _stopProgressionPulseLoop: cancels any active animation frame. -/
def stopProgressionPulseLoop (s : FretState) : FretState :=
  { s with progressionAnimationFrame := false }

/-- stopProgressionPlayback: clears the clock, stops the drum engine,
resets the playing flag and beat index, clears pulse and guide state,
stops the animation loop, and notifies only when playback was active. -/
def stopProgressionPlayback (s : FretState) : FretState :=
  let wasPlaying := s.isProgressionPlaying
  let s1 := { s with progressionBeatTimer := none }
  let s2 := if s1.hasDrumEngine then { s1 with drumStops := s1.drumStops + 1 } else s1
  let s3 := clearProgressionPulse
    { s2 with isProgressionPlaying := false, progressionBeatIndex := 0 }
  let s4 := stopProgressionPulseLoop
    { s3 with progressionGuidePairFrom := none, progressionGuidePairTo := none }
  if wasPlaying then notifyProgressionPlaybackStateChange s4 else s4

/-- _playProgressionBeat: dispatch the current beat plan to the drum and
tone engines, record interpolation endpoints, advance the beat index and
keep the pulse loop running. -/
def playProgressionBeat (s : FretState) : FretState :=
  let rootEntries := getActiveProgressionRootEntries s
  if rootEntries.isEmpty then stopProgressionPlayback s
  else
    match getProgressionBeatPlan s s.progressionBeatIndex rootEntries with
    | none => stopProgressionPlayback s
    | some currentPlan =>
        let nextPlan := getProgressionBeatPlan s (s.progressionBeatIndex + 1) rootEntries
        let currentNotes := currentPlan.noteCells
        let nextNotes := match nextPlan with
          | some p => p.noteCells
          | none => []
        let currentAnchor : Option Cell := match currentPlan.anchorCell with
          | some a => some a
          | none => currentNotes.head?
        let nextAnchor : Option Cell :=
          match nextPlan.bind (fun p => p.anchorCell) with
          | some a => some a
          | none => match nextNotes.head? with
            | some n => some n
            | none => currentAnchor
        let nextShape := match nextPlan with
          | some p => p.shape
          | none => currentPlan.shape
        let s1 := playDrumBeat s (s.progressionBeatIndex % 4)
        let beatSeconds := getProgressionBeatMs s / 1000
        let s2 := { s1 with audioLog := s1.audioLog ++
          currentPlan.noteEvents.filterMap (fun (event : NoteEvent) =>
            if event.kind = some "slap" then
              some (ToneDispatch.slap (max 0 (event.delayBeats * beatSeconds)))
            else match event.cell with
              | none => none
              | some cell => some (ToneDispatch.dot cell.xCw cell.yCw
                  (max 0 (event.delayBeats * beatSeconds))
                  (max (2 / 25) (event.durationBeats * beatSeconds))
                  (event.kind = some "strum"))) }
        let s3 := match currentAnchor with
          | some ca =>
              { s2 with
                progressionPulseFromCell := some ca,
                progressionPulseToCell := some (nextAnchor.getD ca),
                progressionPulseFromCells :=
                  if currentNotes.isEmpty then [ca] else currentNotes,
                progressionPulseToCells :=
                  if nextNotes.isEmpty then
                    (match nextAnchor with
                     | some na => [na]
                     | none => [ca])
                  else nextNotes }
          | none => clearProgressionPulse s2
        let s4 := { s3 with
          progressionGuidePairFrom := some currentPlan.shape,
          progressionGuidePairTo := some nextShape,
          progressionPulseProgress := 0,
          progressionBeatIndex := s3.progressionBeatIndex + 1 }
        startProgressionPulseLoop s4

/-- startProgressionPlayback: no-op returning true while already playing;
returns false without touching anything when the progression has no
resolvable root; otherwise resets the beat index, resets the drum engine,
dispatches beat 0, starts the clock and notifies subscribers. -/
def startProgressionPlayback (s : FretState) : Bool × FretState :=
  if s.isProgressionPlaying then (true, s)
  else if !hasProgressionPath s then (false, s)
  else
    let s1 := { s with isProgressionPlaying := true, progressionBeatIndex := 0 }
    let s2 := if s1.hasDrumEngine then { s1 with drumResets := s1.drumResets + 1 } else s1
    let s3 := playProgressionBeat s2
    let s4 := restartProgressionBeatTimer s3
    (true, notifyProgressionPlaybackStateChange s4)

/-- A state with the constructor defaults of the playback fields. -/
def demoState : FretState :=
  { bricks := [], isLeftHanded := false, isVerticallyMirrored := false,
    activeProgressionDegrees := none, progressionPlaybackMode := "root",
    activeRiffBeats := none, activeStrumBeats := none, activeStrumTimeline := none,
    strumStrokeGapBeats := 1 / 20, progressionBpm := 100, isProgressionPlaying := false,
    progressionBeatTimer := none, progressionAnimationFrame := false,
    progressionBeatIndex := 0, progressionPulseFromCell := none,
    progressionPulseToCell := none, progressionPulseFromCells := [],
    progressionPulseToCells := [], progressionPulseProgress := 0,
    progressionGuidePairFrom := none, progressionGuidePairTo := none,
    hasDrumEngine := false, drumBeats := [], drumResets := 0, drumStops := 0,
    audioLog := [], notifications := 0 }

/-- A state in which playback is active. -/
def demoPlayingState : FretState := { demoState with isProgressionPlaying := true }

/-- A state whose progression has only an unresolvable degree token. -/
def demoInvalidTokenState : FretState :=
  { demoState with activeProgressionDegrees := some ["X"] }

/-- C8: stopProgressionPlayback is idempotent with respect to subscriber
notification: it notifies exactly when playback was active, so two calls
in a row fire at most one notification (the second none), while each call
still clears the clock, clears the interpolation state and resets the
beat index to 0. -/
theorem stopProgressionPlayback_spec (s : FretState) :
    (stopProgressionPlayback s).progressionBeatTimer = none ∧
      (stopProgressionPlayback s).progressionBeatIndex = 0 ∧
      (stopProgressionPlayback s).progressionPulseFromCell = none ∧
      (stopProgressionPlayback s).progressionPulseToCell = none ∧
      (stopProgressionPlayback s).progressionPulseFromCells = [] ∧
      (stopProgressionPlayback s).progressionPulseToCells = [] ∧
      (stopProgressionPlayback s).progressionPulseProgress = 0 ∧
      (stopProgressionPlayback s).isProgressionPlaying = false ∧
      (stopProgressionPlayback s).notifications =
        s.notifications + (if s.isProgressionPlaying then 1 else 0) ∧
      (stopProgressionPlayback (stopProgressionPlayback s)).notifications =
        (stopProgressionPlayback s).notifications := by
  unfold stopProgressionPlayback clearProgressionPulse stopProgressionPulseLoop
    notifyProgressionPlaybackStateChange
  cases hp : s.isProgressionPlaying <;> cases hd : s.hasDrumEngine <;> simp [hp, hd]

/-- C10: calling startProgressionPlayback while playback is already
active returns true and changes nothing at all: the state, including beat
index, clock handle, animation handle, audio log and notification count,
is returned unmodified. -/
theorem startProgressionPlayback_while_active (s : FretState)
    (h : s.isProgressionPlaying = true) :
    startProgressionPlayback s = (true, s) := by
  unfold startProgressionPlayback
  rw [if_pos h]

/-- Witness for C10: a concrete playing state is returned unchanged. -/
theorem startProgressionPlayback_while_active_witness :
    demoPlayingState.isProgressionPlaying = true ∧
      startProgressionPlayback demoPlayingState = (true, demoPlayingState) :=
  ⟨rfl, startProgressionPlayback_while_active demoPlayingState rfl⟩

/-- C7: when the progression resolves to zero root cells and playback is
inactive, startProgressionPlayback returns false and leaves the state
untouched (so no clock or animation is started and nothing is raised),
isProgressionPlaybackActive stays false, and hasProgressionPath reports
false. -/
theorem startProgressionPlayback_zero_roots (s : FretState)
    (hnp : s.isProgressionPlaying = false)
    (hroots : getActiveProgressionRootCells s = []) :
    startProgressionPlayback s = (false, s) ∧ hasProgressionPath s = false ∧
      isProgressionPlaybackActive (startProgressionPlayback s).2 = false := by
  have hpath : hasProgressionPath s = false := by
    unfold hasProgressionPath
    rw [hroots]
    rfl
  have hstart : startProgressionPlayback s = (false, s) := by
    unfold startProgressionPlayback
    rw [if_neg (by rw [hnp]; exact Bool.false_ne_true), if_pos (by rw [hpath]; rfl)]
  refine ⟨hstart, hpath, ?_⟩
  rw [hstart]
  exact hnp

/-- Witness for C7: a progression made of the single unresolvable token
"X" yields zero root cells and a refused start. -/
theorem startProgressionPlayback_zero_roots_witness :
    demoInvalidTokenState.isProgressionPlaying = false ∧
      getActiveProgressionRootCells demoInvalidTokenState = [] ∧
      startProgressionPlayback demoInvalidTokenState = (false, demoInvalidTokenState) :=
  ⟨rfl, rfl, (startProgressionPlayback_zero_roots demoInvalidTokenState rfl rfl).1⟩

/-- C6: setProgressionBpm clamps its input into 60..200 rather than
rejecting it (59 becomes 60, 201 becomes 200); while playback is active
it restarts only the beat clock at the new interval 60000/bpm ms, and the
beat index (together with the playing flag, the animation handle, the
interpolation state, the audio log and the notification count) is left
unchanged; while inactive the clock is untouched. -/
theorem setProgressionBpm_spec (s : FretState) (bpm : ℤ) :
    (60 ≤ (setProgressionBpm s bpm).progressionBpm ∧
      (setProgressionBpm s bpm).progressionBpm ≤ 200) ∧
      (setProgressionBpm s 59).progressionBpm = 60 ∧
      (setProgressionBpm s 201).progressionBpm = 200 ∧
      (setProgressionBpm s bpm).progressionBeatIndex = s.progressionBeatIndex ∧
      (setProgressionBpm s bpm).isProgressionPlaying = s.isProgressionPlaying ∧
      (setProgressionBpm s bpm).progressionAnimationFrame = s.progressionAnimationFrame ∧
      (setProgressionBpm s bpm).progressionPulseFromCells = s.progressionPulseFromCells ∧
      (setProgressionBpm s bpm).progressionPulseToCells = s.progressionPulseToCells ∧
      (setProgressionBpm s bpm).audioLog = s.audioLog ∧
      (setProgressionBpm s bpm).notifications = s.notifications ∧
      (s.isProgressionPlaying = true →
        (setProgressionBpm s bpm).progressionBeatTimer =
          some (60000 / ((setProgressionBpm s bpm).progressionBpm : ℚ))) ∧
      (s.isProgressionPlaying = false →
        (setProgressionBpm s bpm).progressionBeatTimer = s.progressionBeatTimer) := by
  unfold setProgressionBpm restartProgressionBeatTimer getProgressionBeatMs
  cases hp : s.isProgressionPlaying <;>
    simp only [hp, Bool.not_true, Bool.not_false, if_true, if_false, Bool.false_eq_true,
      Bool.true_eq_false, ite_true, ite_false] <;>
    refine ⟨by split_ifs <;> omega, by norm_num, by norm_num, ?_⟩ <;>
    simp

/-- Witness for C6: setting 120 BPM on a concrete playing state leaves
the beat index unchanged and restarts the clock at 500 ms. -/
theorem setProgressionBpm_spec_witness :
    (setProgressionBpm demoPlayingState 120).progressionBeatIndex =
        demoPlayingState.progressionBeatIndex ∧
      (setProgressionBpm demoPlayingState 120).progressionBeatTimer =
        some (60000 / ((setProgressionBpm demoPlayingState 120).progressionBpm : ℚ)) := by
  obtain ⟨-, -, -, h4, -, -, -, -, -, -, h11, -⟩ :=
    setProgressionBpm_spec demoPlayingState 120
  exact ⟨h4, h11 rfl⟩

/-- The default brick placed at _getDefaultBrickTopLeft, as
applyChordProgression does when no brick exists. -/
def defaultBrickItem : BrickItem := ⟨defaultCellData, 10, 6⟩

/-- The C4 scenario: progression I IV V I, playback mode root5th, no riff
and no strum, with the default brick on the canvas. -/
def c4State : FretState :=
  { demoState with
    bricks := [defaultBrickItem],
    activeProgressionDegrees := some ["I", "IV", "V", "I"],
    progressionPlaybackMode := "root5th" }

theorem getDefaultBrickTopLeft_eq : getDefaultBrickTopLeft = (10, 6) := by
  have h : getBrickOriginOffset defaultCellData = (4, 1) := by decide
  unfold getDefaultBrickTopLeft
  rw [h]
  norm_num [defaultOneCellCenterCw, Prod.ext_iff]

theorem c4_findRoot_I : findRootCellInFirstBrick c4State "I" = some ⟨14, 7⟩ := by
  have hsem : degreeToSemitoneOffset "I" = some 0 := by decide
  have hscan : scanBrickRowsForSemitone (defaultCellData.length - 2) defaultCellData 0 =
      some (1, 4) := by decide
  unfold findRootCellInFirstBrick
  norm_num [c4State, demoState, defaultBrickItem, hsem, hscan, Cell.mk.injEq]

theorem c4_findRoot_IV : findRootCellInFirstBrick c4State "IV" = some ⟨14, 8⟩ := by
  have hsem : degreeToSemitoneOffset "IV" = some 5 := by decide
  have hscan : scanBrickRowsForSemitone (defaultCellData.length - 2) defaultCellData 5 =
      some (2, 4) := by decide
  unfold findRootCellInFirstBrick
  norm_num [c4State, demoState, defaultBrickItem, hsem, hscan, Cell.mk.injEq]

theorem c4_findRoot_V : findRootCellInFirstBrick c4State "V" = some ⟨12, 8⟩ := by
  have hsem : degreeToSemitoneOffset "V" = some 7 := by decide
  have hscan : scanBrickRowsForSemitone (defaultCellData.length - 2) defaultCellData 7 =
      some (2, 2) := by decide
  unfold findRootCellInFirstBrick
  norm_num [c4State, demoState, defaultBrickItem, hsem, hscan, Cell.mk.injEq]

theorem c4_entries : getActiveProgressionRootEntries c4State =
    [⟨"I", ⟨14, 7⟩⟩, ⟨"IV", ⟨14, 8⟩⟩, ⟨"V", ⟨12, 8⟩⟩, ⟨"I", ⟨14, 7⟩⟩] := by
  unfold getActiveProgressionRootEntries
  simp only [show c4State.activeProgressionDegrees = some ["I", "IV", "V", "I"] from rfl]
  simp only [List.filterMap_cons, List.filterMap_nil, c4_findRoot_I, c4_findRoot_IV,
    c4_findRoot_V]

theorem c4_cellAbove : getCellAboveInFirstBrick c4State ⟨14, 7⟩ = some ⟨14, 6⟩ := by
  unfold getCellAboveInFirstBrick
  norm_num [c4State, demoState, defaultBrickItem, brickHeightCw, Cell.mk.injEq]

theorem c4_plan_beat0 :
    (getProgressionBeatPlan c4State 0 (getActiveProgressionRootEntries c4State)).map
      (fun p => p.noteEvents) = some [⟨none, some ⟨14, 7⟩, 0, 1⟩] := by
  have hspec : getBassRunSpec c4State =
      ⟨["root", "fifth", "root", "fifth"], "default", ["root", "fifth"]⟩ := by decide
  rw [c4_entries]
  unfold getProgressionBeatPlan getBassRunShapeForChordIndex getChordShapeForRootIndex
  simp only [hspec, show c4State.activeStrumBeats = none from rfl,
    show c4State.activeRiffBeats = none from rfl]
  simp +decide [resolveBassRunTokenCell, buildBassRunNoteEvents,
    buildStrumNoteEventsForBeat, c4_cellAbove, progressionBeatsPerChord]

theorem c4_plan_beat1 :
    (getProgressionBeatPlan c4State 1 (getActiveProgressionRootEntries c4State)).map
      (fun p => p.noteEvents) = some [⟨none, some ⟨14, 6⟩, 0, 1⟩] := by
  have hspec : getBassRunSpec c4State =
      ⟨["root", "fifth", "root", "fifth"], "default", ["root", "fifth"]⟩ := by decide
  rw [c4_entries]
  unfold getProgressionBeatPlan getBassRunShapeForChordIndex getChordShapeForRootIndex
  simp only [hspec, show c4State.activeStrumBeats = none from rfl,
    show c4State.activeRiffBeats = none from rfl]
  simp +decide [resolveBassRunTokenCell, buildBassRunNoteEvents,
    buildStrumNoteEventsForBeat, c4_cellAbove, progressionBeatsPerChord]

theorem c4_plan_beat4 :
    (getProgressionBeatPlan c4State 4 (getActiveProgressionRootEntries c4State)).map
      (fun p => p.noteEvents) = some [⟨none, some ⟨14, 8⟩, 0, 1⟩] := by
  have hspec : getBassRunSpec c4State =
      ⟨["root", "fifth", "root", "fifth"], "default", ["root", "fifth"]⟩ := by decide
  rw [c4_entries]
  unfold getProgressionBeatPlan getBassRunShapeForChordIndex getChordShapeForRootIndex
  simp only [hspec, show c4State.activeStrumBeats = none from rfl,
    show c4State.activeRiffBeats = none from rfl]
  simp +decide [resolveBassRunTokenCell, buildBassRunNoteEvents,
    buildStrumNoteEventsForBeat, progressionBeatsPerChord]

theorem c4_plan_beat8 :
    (getProgressionBeatPlan c4State 8 (getActiveProgressionRootEntries c4State)).map
      (fun p => p.noteEvents) = some [⟨none, some ⟨12, 8⟩, 0, 1⟩] := by
  have hspec : getBassRunSpec c4State =
      ⟨["root", "fifth", "root", "fifth"], "default", ["root", "fifth"]⟩ := by decide
  rw [c4_entries]
  unfold getProgressionBeatPlan getBassRunShapeForChordIndex getChordShapeForRootIndex
  simp only [hspec, show c4State.activeStrumBeats = none from rfl,
    show c4State.activeRiffBeats = none from rfl]
  simp +decide [resolveBassRunTokenCell, buildBassRunNoteEvents,
    buildStrumNoteEventsForBeat, progressionBeatsPerChord]

/-- C4: with progression I IV V I, mode root5th, no riff and no strum, the
beat plan for beat 0 emits one note event targeting the I root cell
(14, 7); beat 1 targets the I fifth cell (14, 6), one row above the root
in the reference brick; beat 4 (chord index 4 / 4 = 1) targets the IV
root (14, 8); beat 8 (chord index 2) targets the V root (12, 8).  The
chord index is beatIndex / 4 and the beat in chord beatIndex mod 4 by
definition of getProgressionBeatPlan. -/
theorem progressionBeatPlan_root5th_scenario :
    (getProgressionBeatPlan c4State 0 (getActiveProgressionRootEntries c4State)).map
        (fun p => p.noteEvents) = some [⟨none, some ⟨14, 7⟩, 0, 1⟩] ∧
      (getProgressionBeatPlan c4State 1 (getActiveProgressionRootEntries c4State)).map
        (fun p => p.noteEvents) = some [⟨none, some ⟨14, 6⟩, 0, 1⟩] ∧
      (getProgressionBeatPlan c4State 4 (getActiveProgressionRootEntries c4State)).map
        (fun p => p.noteEvents) = some [⟨none, some ⟨14, 8⟩, 0, 1⟩] ∧
      (getProgressionBeatPlan c4State 8 (getActiveProgressionRootEntries c4State)).map
        (fun p => p.noteEvents) = some [⟨none, some ⟨12, 8⟩, 0, 1⟩] ∧
      findRootCellInFirstBrick c4State "I" = some ⟨14, 7⟩ ∧
      getCellAboveInFirstBrick c4State ⟨14, 7⟩ = some ⟨14, 6⟩ ∧
      findRootCellInFirstBrick c4State "IV" = some ⟨14, 8⟩ ∧
      findRootCellInFirstBrick c4State "V" = some ⟨12, 8⟩ :=
  ⟨c4_plan_beat0, c4_plan_beat1, c4_plan_beat4, c4_plan_beat8,
   c4_findRoot_I, c4_cellAbove, c4_findRoot_IV, c4_findRoot_V⟩

end Fretscape
